import Mathlib

/-!
Verification of the BCRA bureau client and eligibility analyzer of the
cityloan repository (`src/utils/bcraApi.ts`, record shapes from
`src/types/index.ts`).  The TypeScript is embedded shallowly: the analyzer
becomes a pure Lean function parameterised by the wall-clock evaluation
month, the two fetch wrappers become functions of the identifier and of the
network outcome (an `Option` response envelope, `none` for transport
failure), and JS `number` fields that the analyzer never reads are carried
as integers.
-/

deriving instance DecidableEq for Except

namespace Cityloan

/-- Status tags of the eligibility verdict. -/
inductive BCRAStatus where
  | BCRA_APTO
  | BCRA_NO_APTO
  | BCRA_PENDING
deriving DecidableEq, Repr

/-- Current-debt entity entry, one per reporting institution.  Amounts are
reported in thousands of currency; all fields besides presence are display
only and are never read by the analyzer. -/
structure BCRAEntity where
  entidad : String
  situacion : Int
  fechaSit1 : Option String
  monto : Int
  diasAtrasoPago : Int
  refinanciaciones : Bool
  recategorizacionOblig : Bool
  situacionJuridica : Bool
  irrecDisposicionTecnica : Bool
  enRevision : Bool
  procesoJud : Bool
deriving DecidableEq, Repr

/-- Historical entity entry, the reduced-fidelity variant of `BCRAEntity`. -/
structure BCRAHistoricalEntity where
  entidad : String
  situacion : Int
  monto : Int
  enRevision : Bool
  procesoJud : Bool
deriving DecidableEq, Repr

/-- Current period: a YYYYMM label plus the entities reported that month. -/
structure BCRAPeriod where
  periodo : String
  entidades : List BCRAEntity
deriving DecidableEq, Repr

/-- Historical period: a YYYYMM label plus the entities reported that month. -/
structure BCRAHistoricalPeriod where
  periodo : String
  entidades : List BCRAHistoricalEntity
deriving DecidableEq, Repr

/-- Current-debt record returned by the Deudas endpoint. -/
structure BCRADebtData where
  identificacion : Int
  denominacion : String
  periodos : List BCRAPeriod
deriving DecidableEq, Repr

/-- Historical record returned by the Deudas/Historicas endpoint. -/
structure BCRAHistoricalData where
  identificacion : Int
  denominacion : String
  periodos : List BCRAHistoricalPeriod
deriving DecidableEq, Repr

/-- The eligibility verdict.  The source also stamps an `analysisDate`
ISO string from the wall clock; the clock is modelled by the explicit `Now`
parameter of the analyzer instead, so the timestamp field is not carried. -/
structure BCRAEligibilityAnalysis where
  isEligible : Bool
  status : BCRAStatus
  currentSituation : Option Int
  last6MonthsWorstSituation : Option Int
  last12MonthsWorstSituation : Option Int
  failureReasons : List String
deriving DecidableEq, Repr

/-- Wall-clock evaluation date: `currentYear` is `getFullYear()` and
`currentMonth` is `getMonth() + 1`, so months are numbered 1 to 12. -/
structure Now where
  currentYear : Int
  currentMonth : Int
deriving DecidableEq, Repr

/-- Value of a string of decimal digit characters, most significant first. -/
def digitsVal (cs : List Char) : Nat :=
  cs.foldl (fun acc c => acc * 10 + (c.toNat - 48)) 0

/-- Decimal fragment of JS `parseInt`: an optional sign followed by the
longest leading run of decimal digits, `none` (JS `NaN`) when that run is
empty.  Whitespace trimming and hexadecimal auto-detection of `parseInt`
are outside the label domain and are not modelled. -/
def jsParseInt (s : String) : Option Int :=
  let cs := s.data
  let sign : Int := if cs.head? = some '-' then -1 else 1
  let rest := if cs.head? = some '-' ∨ cs.head? = some '+' then cs.tail else cs
  let digits := rest.takeWhile Char.isDigit
  if digits.isEmpty then none else some (sign * (digitsVal digits : Int))

/-- JS `String.prototype.substring(a, b)` for `a ≤ b`: the characters from
index `a` up to but excluding index `b`, clamped to the string's length. -/
def jsSubstring (s : String) (a b : Nat) : String :=
  ⟨(s.data.drop a).take (b - a)⟩

/-- The `Date(year, month)` constructor maps a year argument between 0 and
99 to `1900 + year`. -/
def jsYearAdjust (y : Int) : Int :=
  if 0 ≤ y ∧ y ≤ 99 then y + 1900 else y

/-- Absolute month index of `new Date(year, month0)` with a 0-indexed month
argument; the constructor normalizes out-of-range month arguments by
carrying into the year, so ordering of date values is ordering of this
index. -/
def jsMonthIndex (year month0 : Int) : Int :=
  jsYearAdjust year * 12 + month0

/-- Worst situation of a historical period: `Math.max` of the situation
codes of its entities, and 1 (normal) when the entity list is empty. -/
def getWorstSituationForPeriod (p : BCRAHistoricalPeriod) : Int :=
  match p.entidades with
  | [] => 1
  | e :: es => (es.map (fun x => x.situacion)).foldl max e.situacion

/-- The source's window test: parse year and month out of the label, build
first-of-month dates and compare `periodoDate >= cutoffDate`.  When either
parse fails the date is invalid (`NaN`) and the comparison is false. -/
def isPeriodWithinMonths (now : Now) (periodo : String) (months : Int) : Bool :=
  match jsParseInt (jsSubstring periodo 0 4), jsParseInt (jsSubstring periodo 4 6) with
  | some periodoYear, some periodoMonth =>
      decide (jsMonthIndex periodoYear (periodoMonth - 1) ≥
        jsMonthIndex now.currentYear (now.currentMonth - 1 - months))
  | _, _ => false

/-- Lexicographic code-unit comparison of character lists, the order that
`localeCompare` induces on the fixed-width decimal labels of the data model
(locale collation coincides with code-unit order on them). -/
def charListLe : List Char → List Char → Bool
  | [], _ => true
  | _ :: _, [] => false
  | a :: as, b :: bs =>
    if a.toNat < b.toNat then true
    else if b.toNat < a.toNat then false
    else charListLe as bs

/-- Label order: `labelLe a b` holds when `a.localeCompare(b) <= 0`. -/
def labelLe (a b : String) : Bool := charListLe a.data b.data

/-- Descending order on period labels, the comparator
`(a, b) => b.periodo.localeCompare(a.periodo)` of the source sort. -/
def periodDescR (a b : BCRAHistoricalPeriod) : Prop :=
  labelLe b.periodo a.periodo = true

instance : DecidableRel periodDescR := fun a b =>
  inferInstanceAs (Decidable (labelLe b.periodo a.periodo = true))

theorem charListLe_total (x y : List Char) :
    charListLe x y = true ∨ charListLe y x = true := by
  induction x generalizing y with
  | nil => exact Or.inl rfl
  | cons a as ih =>
    cases y with
    | nil => exact Or.inr rfl
    | cons b bs =>
      rcases Nat.lt_trichotomy a.toNat b.toNat with h | h | h
      · left; simp [charListLe, h]
      · rcases ih bs with h1 | h1 <;>
          simp [charListLe, h, Nat.lt_irrefl, h1]
      · right; simp [charListLe, h]

theorem charListLe_trans {x y z : List Char} (h1 : charListLe x y = true)
    (h2 : charListLe y z = true) : charListLe x z = true := by
  induction x generalizing y z with
  | nil => rfl
  | cons a as ih =>
    cases y with
    | nil => simp [charListLe] at h1
    | cons b bs =>
      cases z with
      | nil => simp [charListLe] at h2
      | cons c cs =>
        simp only [charListLe] at h1 h2 ⊢
        rcases Nat.lt_trichotomy a.toNat b.toNat with hab | hab | hab <;>
          rcases Nat.lt_trichotomy b.toNat c.toNat with hbc | hbc | hbc
        · have hac : a.toNat < c.toNat := Nat.lt_trans hab hbc
          simp [hac]
        · have hac : a.toNat < c.toNat := by omega
          simp [hac]
        · have hn : ¬ b.toNat < c.toNat := by omega
          simp [hn, hbc] at h2
        · have hac : a.toNat < c.toNat := by omega
          simp [hac]
        · have h1' : charListLe as bs = true := by
            have hn1 : ¬ a.toNat < b.toNat := by omega
            have hn2 : ¬ b.toNat < a.toNat := by omega
            simpa [hn1, hn2] using h1
          have h2' : charListLe bs cs = true := by
            have hn1 : ¬ b.toNat < c.toNat := by omega
            have hn2 : ¬ c.toNat < b.toNat := by omega
            simpa [hn1, hn2] using h2
          have hn1 : ¬ a.toNat < c.toNat := by omega
          have hn2 : ¬ c.toNat < a.toNat := by omega
          simp [hn1, hn2, ih h1' h2']
        · have hn : ¬ b.toNat < c.toNat := by omega
          simp [hn, hbc] at h2
        · have hn : ¬ a.toNat < b.toNat := by omega
          simp [hn, hab] at h1
        · have hn : ¬ a.toNat < b.toNat := by omega
          simp [hn, hab] at h1
        · have hn : ¬ a.toNat < b.toNat := by omega
          simp [hn, hab] at h1

theorem charListLe_antisymm {x y : List Char} (h1 : charListLe x y = true)
    (h2 : charListLe y x = true) : x = y := by
  induction x generalizing y with
  | nil =>
    cases y with
    | nil => rfl
    | cons b bs => simp [charListLe] at h2
  | cons a as ih =>
    cases y with
    | nil => simp [charListLe] at h1
    | cons b bs =>
      simp only [charListLe] at h1 h2
      rcases Nat.lt_trichotomy a.toNat b.toNat with h | h | h
      · simp [h, Nat.lt_asymm h] at h2
      · have ha : ¬ a.toNat < b.toNat := by omega
        have hb : ¬ b.toNat < a.toNat := by omega
        simp only [ha, hb, if_false] at h1 h2
        have : a = b := Char.eq_of_val_eq (by
          apply UInt32.eq_of_val_eq
          apply Fin.ext
          exact h)
        rw [this, ih h1 h2]
      · simp [h, Nat.lt_asymm h] at h1

instance : IsTotal BCRAHistoricalPeriod periodDescR :=
  ⟨fun a b => charListLe_total b.periodo.data a.periodo.data⟩

instance : IsTrans BCRAHistoricalPeriod periodDescR :=
  ⟨fun _ _ _ h1 h2 => charListLe_trans h2 h1⟩

/-- `[...periodos].sort((a, b) => b.periodo.localeCompare(a.periodo))`.
`Array.prototype.sort` is a stable sort and a stable sort over a total
preorder has a unique result, so stable insertion sort computes it. -/
def sortPeriodsDesc (ps : List BCRAHistoricalPeriod) : List BCRAHistoricalPeriod :=
  List.insertionSort periodDescR ps

/-- `Math.max(...ps.map(getWorstSituationForPeriod))` guarded by a
non-emptiness check, as the source computes it for each window. -/
def worstOfPeriods : List BCRAHistoricalPeriod → Option Int
  | [] => none
  | p :: ps => some ((ps.map getWorstSituationForPeriod).foldl max (getWorstSituationForPeriod p))

def noDataReason : String := "No hay datos disponibles en BCRA"

def noHistoricalReason : String := "No hay datos históricos disponibles para análisis completo"

def noPeriodsReason : String := "No hay períodos disponibles en el historial"

def currentReason (s : Int) : String :=
  "Situación actual: " ++ toString s ++ " (debe ser ≤ 1)"

def last6Reason (s : Int) : String :=
  "Peor situación últimos 6 meses: " ++ toString s ++ " (debe ser ≤ 1)"

def last12Reason (s : Int) : String :=
  "Peor situación últimos 12 meses: " ++ toString s ++ " (debe ser ≤ 2)"

/-- Failure reasons contributed by one window check: one reason when the
window's worst situation exists and exceeds the threshold, none otherwise. -/
def thresholdReasons (w : Option Int) (threshold : Int) (mk : Int → String) : List String :=
  match w with
  | some m => if m > threshold then [mk m] else []
  | none => []

/-- The early-return verdict of the analyzer: pending, ineligible, all
situation fields null, with the given reasons. -/
def pendingAnalysis (reasons : List String) : BCRAEligibilityAnalysis :=
  { isEligible := false
    status := BCRAStatus.BCRA_PENDING
    currentSituation := none
    last6MonthsWorstSituation := none
    last12MonthsWorstSituation := none
    failureReasons := reasons }

/-- Body of the analyzer past the early returns, on the sorted period list
(`mostRecentPeriod` is its head): current check, 6-month check, 12-month
check, then the final verdict. -/
def analyzeSortedPeriods (now : Now) (mostRecentPeriod : BCRAHistoricalPeriod)
    (sortedPeriods : List BCRAHistoricalPeriod) : BCRAEligibilityAnalysis :=
  let currentSituation := getWorstSituationForPeriod mostRecentPeriod
  let currentReasons := if currentSituation > 1 then [currentReason currentSituation] else []
  let last6MonthsPeriods := sortedPeriods.filter fun p => isPeriodWithinMonths now p.periodo 6
  let last6Worst := worstOfPeriods last6MonthsPeriods
  let last6Reasons := thresholdReasons last6Worst 1 last6Reason
  let last12MonthsPeriods := sortedPeriods.filter fun p => isPeriodWithinMonths now p.periodo 12
  let last12Worst := worstOfPeriods last12MonthsPeriods
  let last12Reasons := thresholdReasons last12Worst 2 last12Reason
  let failureReasons := currentReasons ++ last6Reasons ++ last12Reasons
  { isEligible := failureReasons.isEmpty
    status := if failureReasons.isEmpty then BCRAStatus.BCRA_APTO else BCRAStatus.BCRA_NO_APTO
    currentSituation := some currentSituation
    last6MonthsWorstSituation := last6Worst
    last12MonthsWorstSituation := last12Worst
    failureReasons := failureReasons }

/-- `analyzeBCRAEligibility(currentData, historicalData)` with the wall
clock passed explicitly.  The current record is only tested for presence in
the early returns; past them the analysis reads the historical record
alone. -/
def analyzeBCRAEligibility (now : Now) (currentData : Option BCRADebtData)
    (historicalData : Option BCRAHistoricalData) : BCRAEligibilityAnalysis :=
  match currentData, historicalData with
  | none, none => pendingAnalysis [noDataReason]
  | some _, none => pendingAnalysis [noHistoricalReason]
  | _, some hist =>
    match sortPeriodsDesc hist.periodos with
    | [] => pendingAnalysis [noPeriodsReason]
    | mostRecentPeriod :: rest => analyzeSortedPeriods now mostRecentPeriod (mostRecentPeriod :: rest)

/-- Error payload of `BCRAApiError`. -/
structure BCRAApiError where
  message : String
  status : Int
  errorMessages : List String
deriving DecidableEq, Repr

/-- Response envelope of the Deudas endpoint. -/
structure BCRAApiResponse where
  status : Int
  results : Option BCRADebtData
  errorMessages : Option (List String)
deriving DecidableEq, Repr

/-- Response envelope of the Deudas/Historicas endpoint. -/
structure BCRAHistoricalApiResponse where
  status : Int
  results : Option BCRAHistoricalData
  errorMessages : Option (List String)
deriving DecidableEq, Repr

/-- `cuit.replace(/\D/g, '')`: keep only the decimal digit characters. -/
def cleanCuitOf (cuit : String) : String :=
  ⟨cuit.data.filter Char.isDigit⟩

def invalidCuitMessage : String :=
  "Parámetro erróneo: Ingresar 11 dígitos para realizar la consulta."

def notFoundMessage : String :=
  "No se encontró datos para la identificación ingresada."

def serverErrorMessage : String :=
  "Se produjo un error al ejecutar la acción."

/-- The error thrown before any network activity when the cleaned
identifier is not 11 digits long. -/
def invalidCuitError : BCRAApiError :=
  { message := "CUIT must have exactly 11 digits"
    status := 400
    errorMessages := [invalidCuitMessage] }

/-- The error thrown on a body status of 200 without a results payload. -/
def noResultsError : BCRAApiError :=
  { message := "No results in successful response"
    status := 200
    errorMessages := [] }

/-- The error thrown on transport failure. -/
def networkFailureError : BCRAApiError :=
  { message := "Network error: Unable to connect to BCRA API"
    status := 0
    errorMessages := ["Error de conexión con la API del BCRA. Verifique su conexión a internet."] }

/-- `data.errorMessages || dflt`: `undefined` falls back to the default; an
empty array is truthy in JS and is kept. -/
def orDefault (msgs : Option (List String)) (dflt : List String) : List String :=
  match msgs with
  | some m => m
  | none => dflt

/-- `fetchBCRADebtData` with the network modelled as the envelope the call
would produce (`none` for transport failure): validate the identifier, then
dispatch on the body status exactly as the source's switch does. -/
def fetchBCRADebtData (cuit : String) (net : Option BCRAApiResponse) :
    Except BCRAApiError BCRADebtData :=
  let cleanCuit := cleanCuitOf cuit
  if cleanCuit.length ≠ 11 then
    Except.error invalidCuitError
  else
    match net with
    | none => Except.error networkFailureError
    | some data =>
      if data.status = 200 then
        match data.results with
        | some results => Except.ok results
        | none => Except.error noResultsError
      else if data.status = 400 then
        Except.error
          { message := "Invalid CUIT format"
            status := 400
            errorMessages := orDefault data.errorMessages [invalidCuitMessage] }
      else if data.status = 404 then
        Except.error
          { message := "No data found for the provided CUIT"
            status := 404
            errorMessages := orDefault data.errorMessages [notFoundMessage] }
      else if data.status = 500 then
        Except.error
          { message := "BCRA server error"
            status := 500
            errorMessages := orDefault data.errorMessages [serverErrorMessage] }
      else
        Except.error
          { message := "Unexpected response status: " ++ toString data.status
            status := data.status
            errorMessages := orDefault data.errorMessages [] }

/-- `fetchBCRAHistoricalData`, identical to the current-debt fetch up to
the endpoint, the result type and the 404 message. -/
def fetchBCRAHistoricalData (cuit : String) (net : Option BCRAHistoricalApiResponse) :
    Except BCRAApiError BCRAHistoricalData :=
  let cleanCuit := cleanCuitOf cuit
  if cleanCuit.length ≠ 11 then
    Except.error invalidCuitError
  else
    match net with
    | none => Except.error networkFailureError
    | some data =>
      if data.status = 200 then
        match data.results with
        | some results => Except.ok results
        | none => Except.error noResultsError
      else if data.status = 400 then
        Except.error
          { message := "Invalid CUIT format"
            status := 400
            errorMessages := orDefault data.errorMessages [invalidCuitMessage] }
      else if data.status = 404 then
        Except.error
          { message := "No historical data found for the provided CUIT"
            status := 404
            errorMessages := orDefault data.errorMessages [notFoundMessage] }
      else if data.status = 500 then
        Except.error
          { message := "BCRA server error"
            status := 500
            errorMessages := orDefault data.errorMessages [serverErrorMessage] }
      else
        Except.error
          { message := "Unexpected response status: " ++ toString data.status
            status := data.status
            errorMessages := orDefault data.errorMessages [] }

/-- Year read off a YYYYMM label: value of its first four digits. -/
def labelYear (s : String) : Nat := digitsVal (s.data.take 4)

/-- Month read off a YYYYMM label: value of its last two digits. -/
def labelMonth (s : String) : Nat := digitsVal (s.data.drop 4)

/-- Well-formed period label of the data model: six decimal digits whose
year part is at least 100 (the `Date` constructor remaps years 0 to 99, a
range real bureau labels never hit). -/
def WellFormedLabel (s : String) : Prop :=
  s.data.length = 6 ∧ (∀ c ∈ s.data, c.isDigit = true) ∧ 100 ≤ labelYear s

instance (s : String) : Decidable (WellFormedLabel s) :=
  inferInstanceAs (Decidable (_ ∧ _ ∧ _))

/-- Modelled from the spec's words: a period qualifies for the trailing
`n`-month window when its first-of-month date is on or after the evaluation
month minus `n`, inclusively. -/
def specWithinMonths (now : Now) (s : String) (n : Int) : Prop :=
  (labelYear s : Int) * 12 + ((labelMonth s : Int) - 1) ≥
    now.currentYear * 12 + (now.currentMonth - 1 - n)

instance (now : Now) (s : String) (n : Int) : Decidable (specWithinMonths now s n) :=
  inferInstanceAs (Decidable (_ ≥ _))

theorem charListLe_refl (x : List Char) : charListLe x x = true := by
  induction x with
  | nil => rfl
  | cons a as ih => simp [charListLe, Nat.lt_irrefl, ih]

theorem labelLe_refl (s : String) : labelLe s s = true :=
  charListLe_refl s.data

theorem labelLe_antisymm {s t : String} (h1 : labelLe s t = true)
    (h2 : labelLe t s = true) : s = t := by
  have hd := charListLe_antisymm h1 h2
  cases s; cases t
  exact congrArg String.mk hd

theorem foldl_max_spec (x : Int) (xs : List Int) :
    (xs.foldl max x = x ∨ xs.foldl max x ∈ xs) ∧ x ≤ xs.foldl max x ∧
      ∀ y ∈ xs, y ≤ xs.foldl max x := by
  induction xs generalizing x with
  | nil => simp
  | cons a as ih =>
    simp only [List.foldl_cons]
    obtain ⟨hmem, hle, hall⟩ := ih (max x a)
    refine ⟨?_, ?_, ?_⟩
    · rcases hmem with h | h
      · rcases max_choice x a with hc | hc
        · left; rw [h, hc]
        · right; rw [h, hc]; exact List.mem_cons_self _ _
      · right; exact List.mem_cons_of_mem _ h
    · exact le_trans (le_max_left x a) hle
    · intro y hy
      rcases List.mem_cons.mp hy with rfl | hy'
      · exact le_trans (le_max_right x y) hle
      · exact hall y hy'

theorem worstOfPeriods_eq_none_iff (ps : List BCRAHistoricalPeriod) :
    worstOfPeriods ps = none ↔ ps = [] := by
  cases ps <;> simp [worstOfPeriods]

theorem worstOfPeriods_spec {ps : List BCRAHistoricalPeriod} {m : Int}
    (h : worstOfPeriods ps = some m) :
    m ∈ ps.map getWorstSituationForPeriod ∧
      ∀ q ∈ ps, getWorstSituationForPeriod q ≤ m := by
  cases ps with
  | nil => simp [worstOfPeriods] at h
  | cons p rest =>
    simp only [worstOfPeriods, Option.some.injEq] at h
    subst h
    obtain ⟨hmem, hle, hall⟩ := foldl_max_spec (getWorstSituationForPeriod p)
      (rest.map getWorstSituationForPeriod)
    constructor
    · rcases hmem with h | h
      · rw [h]
        exact List.mem_map_of_mem _ (List.mem_cons_self _ _)
      · rcases List.mem_map.mp h with ⟨q, hq, hq'⟩
        rw [← hq']
        exact List.mem_map_of_mem _ (List.mem_cons_of_mem _ hq)
    · intro q hq
      rcases List.mem_cons.mp hq with rfl | hq'
      · exact hle
      · exact hall _ (List.mem_map_of_mem _ hq')

theorem sortPeriodsDesc_perm (ps : List BCRAHistoricalPeriod) :
    (sortPeriodsDesc ps).Perm ps :=
  List.perm_insertionSort periodDescR ps

theorem sortPeriodsDesc_eq_nil_iff (ps : List BCRAHistoricalPeriod) :
    sortPeriodsDesc ps = [] ↔ ps = [] := by
  constructor
  · intro h
    have hp := sortPeriodsDesc_perm ps
    rw [h] at hp
    exact (hp.symm).eq_nil
  · intro h
    subst h
    rfl

theorem sortPeriodsDesc_head_max {ps : List BCRAHistoricalPeriod}
    {p : BCRAHistoricalPeriod} {rest : List BCRAHistoricalPeriod}
    (h : sortPeriodsDesc ps = p :: rest) :
    p ∈ ps ∧ ∀ q ∈ ps, labelLe q.periodo p.periodo = true := by
  have hperm := sortPeriodsDesc_perm ps
  rw [h] at hperm
  have hsorted := List.sorted_insertionSort periodDescR ps
  rw [show List.insertionSort periodDescR ps = sortPeriodsDesc ps from rfl, h] at hsorted
  constructor
  · exact hperm.subset (List.mem_cons_self _ _)
  · intro q hq
    have hq' : q ∈ p :: rest := hperm.symm.subset hq
    rcases List.mem_cons.mp hq' with rfl | hq''
    · exact labelLe_refl _
    · exact List.rel_of_sorted_cons hsorted q hq''

theorem currentReason_ne_last6Reason (a b : Int) :
    currentReason a ≠ last6Reason b := by
  intro h
  have hd := congrArg (fun s => s.data.take 1) h
  simp only [currentReason, last6Reason, String.data_append, List.append_assoc] at hd
  rw [List.take_append_of_le_length (by decide),
    List.take_append_of_le_length (by decide)] at hd
  exact absurd hd (by decide)

theorem currentReason_ne_last12Reason (a b : Int) :
    currentReason a ≠ last12Reason b := by
  intro h
  have hd := congrArg (fun s => s.data.take 1) h
  simp only [currentReason, last12Reason, String.data_append, List.append_assoc] at hd
  rw [List.take_append_of_le_length (by decide),
    List.take_append_of_le_length (by decide)] at hd
  exact absurd hd (by decide)

theorem last6Reason_ne_last12Reason (a b : Int) :
    last6Reason a ≠ last12Reason b := by
  intro h
  have hd := congrArg (fun s => s.data.take 24) h
  simp only [last6Reason, last12Reason, String.data_append, List.append_assoc] at hd
  rw [List.take_append_of_le_length (by decide),
    List.take_append_of_le_length (by decide)] at hd
  exact absurd hd (by decide)

theorem mem_thresholdReasons_iff {w : Option Int} {t : Int} {mk : Int → String}
    {r : String} :
    r ∈ thresholdReasons w t mk ↔ ∃ m, w = some m ∧ t < m ∧ r = mk m := by
  cases w with
  | none => simp [thresholdReasons]
  | some m =>
    by_cases h : t < m <;> simp [thresholdReasons, h]

theorem analyze_eq_of_sort {now : Now} {cur : Option BCRADebtData}
    {hist : BCRAHistoricalData} {p : BCRAHistoricalPeriod}
    {rest : List BCRAHistoricalPeriod}
    (h : sortPeriodsDesc hist.periodos = p :: rest) :
    analyzeBCRAEligibility now cur (some hist) = analyzeSortedPeriods now p (p :: rest) := by
  cases cur <;> simp [analyzeBCRAEligibility, h]

theorem analyzeSorted_currentSituation (now : Now) (p : BCRAHistoricalPeriod)
    (sp : List BCRAHistoricalPeriod) :
    (analyzeSortedPeriods now p sp).currentSituation =
      some (getWorstSituationForPeriod p) := rfl

theorem analyzeSorted_last6 (now : Now) (p : BCRAHistoricalPeriod)
    (sp : List BCRAHistoricalPeriod) :
    (analyzeSortedPeriods now p sp).last6MonthsWorstSituation =
      worstOfPeriods (sp.filter fun q => isPeriodWithinMonths now q.periodo 6) := rfl

theorem analyzeSorted_last12 (now : Now) (p : BCRAHistoricalPeriod)
    (sp : List BCRAHistoricalPeriod) :
    (analyzeSortedPeriods now p sp).last12MonthsWorstSituation =
      worstOfPeriods (sp.filter fun q => isPeriodWithinMonths now q.periodo 12) := rfl

theorem analyzeSorted_failureReasons (now : Now) (p : BCRAHistoricalPeriod)
    (sp : List BCRAHistoricalPeriod) :
    (analyzeSortedPeriods now p sp).failureReasons =
      (if getWorstSituationForPeriod p > 1
        then [currentReason (getWorstSituationForPeriod p)] else []) ++
      thresholdReasons
        (worstOfPeriods (sp.filter fun q => isPeriodWithinMonths now q.periodo 6))
        1 last6Reason ++
      thresholdReasons
        (worstOfPeriods (sp.filter fun q => isPeriodWithinMonths now q.periodo 12))
        2 last12Reason := rfl

theorem analyzeSorted_isEligible (now : Now) (p : BCRAHistoricalPeriod)
    (sp : List BCRAHistoricalPeriod) :
    (analyzeSortedPeriods now p sp).isEligible =
      (analyzeSortedPeriods now p sp).failureReasons.isEmpty := rfl

theorem analyzeSorted_status (now : Now) (p : BCRAHistoricalPeriod)
    (sp : List BCRAHistoricalPeriod) :
    (analyzeSortedPeriods now p sp).status =
      (if (analyzeSortedPeriods now p sp).failureReasons.isEmpty
        then BCRAStatus.BCRA_APTO else BCRAStatus.BCRA_NO_APTO) := rfl

theorem takeWhile_isDigit_of_all {cs : List Char}
    (h : ∀ c ∈ cs, c.isDigit = true) : cs.takeWhile Char.isDigit = cs := by
  induction cs with
  | nil => rfl
  | cons c cs' ih =>
    rw [List.takeWhile_cons_of_pos (h c (List.mem_cons_self _ _))]
    rw [ih fun d hd => h d (List.mem_cons_of_mem _ hd)]

theorem jsParseInt_digits {cs : List Char} (hne : cs ≠ [])
    (h : ∀ c ∈ cs, c.isDigit = true) :
    jsParseInt ⟨cs⟩ = some ((digitsVal cs : Int)) := by
  cases cs with
  | nil => exact absurd rfl hne
  | cons c cs' =>
    have hc : c.isDigit = true := h c (List.mem_cons_self _ _)
    have hminus : c ≠ '-' := by
      intro hEq
      rw [hEq] at hc
      exact absurd hc (by decide)
    have hplus : c ≠ '+' := by
      intro hEq
      rw [hEq] at hc
      exact absurd hc (by decide)
    have hor : ¬ (c = '-' ∨ c = '+') := by
      intro hx
      rcases hx with hx | hx
      · exact hminus hx
      · exact hplus hx
    simp only [jsParseInt, List.head?_cons, Option.some.injEq]
    rw [if_neg hminus, if_neg hor, takeWhile_isDigit_of_all h]
    simp

theorem jsSubstring_first4 {s : String} : jsSubstring s 0 4 = ⟨s.data.take 4⟩ := by
  simp [jsSubstring]

theorem jsSubstring_last2 {s : String} (hlen : s.data.length = 6) :
    jsSubstring s 4 6 = ⟨s.data.drop 4⟩ := by
  rw [jsSubstring]
  congr 1
  apply List.take_of_length_le
  simp [hlen]

theorem isPeriodWithinMonths_eq_spec {now : Now} {s : String} {n : Int}
    (hwf : WellFormedLabel s) (hnow : 100 ≤ now.currentYear) :
    isPeriodWithinMonths now s n = decide (specWithinMonths now s n) := by
  obtain ⟨hlen, hdig, hyear⟩ := hwf
  have htk : (s.data.take 4) ≠ [] := by
    intro hnil
    have := congrArg List.length hnil
    simp [List.length_take, hlen] at this
  have hdr : (s.data.drop 4) ≠ [] := by
    intro hnil
    have := congrArg List.length hnil
    simp [List.length_drop, hlen] at this
  have hy : jsParseInt (jsSubstring s 0 4) = some ((labelYear s : Int)) := by
    rw [jsSubstring_first4,
      jsParseInt_digits htk fun c hc => hdig c (List.mem_of_mem_take hc)]
    rfl
  have hm : jsParseInt (jsSubstring s 4 6) = some ((labelMonth s : Int)) := by
    rw [jsSubstring_last2 hlen,
      jsParseInt_digits hdr fun c hc => hdig c (List.mem_of_mem_drop hc)]
    rfl
  simp only [isPeriodWithinMonths, hy, hm]
  rw [decide_eq_decide]
  have hadj1 : jsYearAdjust ((labelYear s : Nat) : Int) = ((labelYear s : Nat) : Int) := by
    rw [jsYearAdjust, if_neg]
    intro hr
    omega
  have hadj2 : jsYearAdjust now.currentYear = now.currentYear := by
    rw [jsYearAdjust, if_neg]
    intro hr
    omega
  rw [specWithinMonths]
  unfold jsMonthIndex
  rw [hadj1, hadj2]

theorem isPeriodWithinMonths_mono {now : Now} {s : String} {n n' : Int}
    (hnn : n ≤ n') (h : isPeriodWithinMonths now s n = true) :
    isPeriodWithinMonths now s n' = true := by
  cases hy : jsParseInt (jsSubstring s 0 4) with
  | none => simp [isPeriodWithinMonths, hy] at h
  | some py =>
    cases hm : jsParseInt (jsSubstring s 4 6) with
    | none => simp [isPeriodWithinMonths, hy, hm] at h
    | some pm =>
      simp only [isPeriodWithinMonths, hy, hm, decide_eq_true_eq] at h ⊢
      unfold jsMonthIndex at h ⊢
      omega

theorem window_filter_perm {now : Now} {hist : BCRAHistoricalData}
    {p : BCRAHistoricalPeriod} {rest : List BCRAHistoricalPeriod} {n : Int}
    (hsort : sortPeriodsDesc hist.periodos = p :: rest)
    (hwf : ∀ q ∈ hist.periodos, WellFormedLabel q.periodo)
    (hnow : 100 ≤ now.currentYear) :
    (hist.periodos.filter fun q => decide (specWithinMonths now q.periodo n)).Perm
      ((p :: rest).filter fun q => isPeriodWithinMonths now q.periodo n) := by
  have hperm := sortPeriodsDesc_perm hist.periodos
  rw [hsort] at hperm
  have hcongr : ((p :: rest).filter fun q => isPeriodWithinMonths now q.periodo n) =
      ((p :: rest).filter fun q => decide (specWithinMonths now q.periodo n)) := by
    apply List.filter_congr
    intro q hq
    exact isPeriodWithinMonths_eq_spec (hwf q (hperm.subset hq)) hnow
  rw [hcongr]
  exact (List.Perm.filter _ hperm).symm

/-- Evaluation date used by the concrete witnesses: March 2024. -/
def nowMarch2024 : Now := ⟨2024, 3⟩

/-- The historical record of the spec's worked example: January 2024 with
worst situation 1, December 2023 with worst situation 3. -/
def exampleHistorical : BCRAHistoricalData :=
  ⟨20123456789, "CONTRIBUYENTE EJEMPLO",
    [⟨"202401", [⟨"Banco Uno", 1, 100, false, false⟩]⟩,
     ⟨"202312", [⟨"Banco Dos", 2, 50, false, false⟩,
       ⟨"Banco Tres", 3, 25, false, false⟩]⟩]⟩

/-- C5: whenever the historical record is absent, the analyzer returns a
PENDING, ineligible verdict with all three situation fields null and a
non-empty failure-reason list: the no-bureau-data reason when the current
record is also absent, the no-historical-data reason when only the current
record is present. -/
theorem c5_absent_historical_pending (now : Now) (cur : Option BCRADebtData) :
    (analyzeBCRAEligibility now cur none).status = BCRAStatus.BCRA_PENDING ∧
    (analyzeBCRAEligibility now cur none).isEligible = false ∧
    (analyzeBCRAEligibility now cur none).currentSituation = none ∧
    (analyzeBCRAEligibility now cur none).last6MonthsWorstSituation = none ∧
    (analyzeBCRAEligibility now cur none).last12MonthsWorstSituation = none ∧
    (analyzeBCRAEligibility now cur none).failureReasons ≠ [] ∧
    (analyzeBCRAEligibility now cur none).failureReasons =
      [if cur.isSome then noHistoricalReason else noDataReason] := by
  cases cur <;> simp [analyzeBCRAEligibility, pendingAnalysis]

/-- C8: with the historical record present, the analyzer's verdict does not
depend on the contents of the current debt record: any two present current
records produce the same verdict (the analyzer never reads the current
record past its presence test). -/
theorem c8_current_record_noninterference (now : Now) (c1 c2 : BCRADebtData)
    (hist : BCRAHistoricalData) :
    analyzeBCRAEligibility now (some c1) (some hist) =
      analyzeBCRAEligibility now (some c2) (some hist) := rfl

/-- C4: past the early returns (historical record present with a non-empty
period list), the verdict satisfies: eligible iff the failure-reason list
is empty, status is APTO exactly when eligible and NO_APTO otherwise, and
the status is never PENDING. -/
theorem c4_final_verdict (now : Now) (cur : Option BCRADebtData)
    (hist : BCRAHistoricalData) (hne : hist.periodos ≠ []) :
    ((analyzeBCRAEligibility now cur (some hist)).isEligible = true ↔
      (analyzeBCRAEligibility now cur (some hist)).failureReasons = []) ∧
    ((analyzeBCRAEligibility now cur (some hist)).status =
      if (analyzeBCRAEligibility now cur (some hist)).isEligible
        then BCRAStatus.BCRA_APTO else BCRAStatus.BCRA_NO_APTO) ∧
    (analyzeBCRAEligibility now cur (some hist)).status ≠ BCRAStatus.BCRA_PENDING := by
  cases hs : sortPeriodsDesc hist.periodos with
  | nil => exact absurd ((sortPeriodsDesc_eq_nil_iff _).mp hs) hne
  | cons p rest =>
    rw [analyze_eq_of_sort hs]
    refine ⟨?_, rfl, ?_⟩
    · rw [analyzeSorted_isEligible]
      exact List.isEmpty_iff
    · rw [analyzeSorted_status]
      cases hem : (analyzeSortedPeriods now p (p :: rest)).failureReasons.isEmpty <;> simp

/-- C4 witness: the worked example has a non-empty period list and its
NO_APTO verdict satisfies the final-verdict equations. -/
theorem c4_witness :
    ((analyzeBCRAEligibility nowMarch2024 none (some exampleHistorical)).isEligible = true ↔
      (analyzeBCRAEligibility nowMarch2024 none (some exampleHistorical)).failureReasons = []) ∧
    ((analyzeBCRAEligibility nowMarch2024 none (some exampleHistorical)).status =
      if (analyzeBCRAEligibility nowMarch2024 none (some exampleHistorical)).isEligible
        then BCRAStatus.BCRA_APTO else BCRAStatus.BCRA_NO_APTO) ∧
    (analyzeBCRAEligibility nowMarch2024 none (some exampleHistorical)).status ≠
      BCRAStatus.BCRA_PENDING :=
  c4_final_verdict nowMarch2024 none exampleHistorical (by decide)

/-- C6: an identifier that does not clean up to exactly 11 digits makes
both fetch operations fail with the invalid-identifier error (status 400,
with a diagnostic message) for every possible network outcome, that is,
before the network is consulted. -/
theorem c6_invalid_cuit_rejected (cuit : String)
    (h : (cleanCuitOf cuit).length ≠ 11) :
    (∀ net : Option BCRAApiResponse,
      fetchBCRADebtData cuit net = Except.error invalidCuitError) ∧
    (∀ net : Option BCRAHistoricalApiResponse,
      fetchBCRAHistoricalData cuit net = Except.error invalidCuitError) ∧
    invalidCuitError.status = 400 ∧ invalidCuitError.errorMessages ≠ [] := by
  refine ⟨fun net => ?_, fun net => ?_, rfl, by simp [invalidCuitError]⟩
  · simp only [fetchBCRADebtData]
    rw [if_pos h]
  · simp only [fetchBCRAHistoricalData]
    rw [if_pos h]

/-- C6 witness: the identifier "123" cleans to 3 digits and is rejected by
both fetches regardless of the network. -/
theorem c6_witness :
    (cleanCuitOf "123").length ≠ 11 ∧
    fetchBCRADebtData "123" none = Except.error invalidCuitError ∧
    fetchBCRAHistoricalData "123" none = Except.error invalidCuitError := by
  have h := c6_invalid_cuit_rejected "123" (by decide)
  exact ⟨by decide, h.1 none, h.2.1 none⟩

/-- C10: on a response body carrying status 200 without a results payload,
both fetches fail with the no-results error, which carries status 200 and
an empty diagnostic list; a success status alone never yields a record. -/
theorem c10_success_without_results (cuit : String) (resp : BCRAApiResponse)
    (hresp : BCRAHistoricalApiResponse)
    (hc : (cleanCuitOf cuit).length = 11)
    (h1 : resp.status = 200) (h2 : resp.results = none)
    (h3 : hresp.status = 200) (h4 : hresp.results = none) :
    fetchBCRADebtData cuit (some resp) = Except.error noResultsError ∧
    fetchBCRAHistoricalData cuit (some hresp) = Except.error noResultsError ∧
    noResultsError.status = 200 ∧ noResultsError.errorMessages = [] := by
  refine ⟨?_, ?_, rfl, rfl⟩
  · simp only [fetchBCRADebtData]
    rw [if_neg (by simp [hc]), if_pos h1, h2]
  · simp only [fetchBCRAHistoricalData]
    rw [if_neg (by simp [hc]), if_pos h3, h4]

/-- C10 witness: a valid 11-digit identifier with a 200-status body holding
no results fails with the no-results error on both endpoints. -/
theorem c10_witness :
    (cleanCuitOf "20123456789").length = 11 ∧
    fetchBCRADebtData "20123456789" (some ⟨200, none, none⟩) =
      Except.error noResultsError ∧
    fetchBCRAHistoricalData "20123456789" (some ⟨200, none, none⟩) =
      Except.error noResultsError :=
  ⟨by decide,
    (c10_success_without_results "20123456789" ⟨200, none, none⟩ ⟨200, none, none⟩
      (by decide) rfl rfl rfl rfl).1,
    (c10_success_without_results "20123456789" ⟨200, none, none⟩ ⟨200, none, none⟩
      (by decide) rfl rfl rfl rfl).2.1⟩

/-- C3: with the historical record present and its period list non-empty,
the worst situation of a period with no entities is 1 (not a failure, not
null), `currentSituation` is the worst situation of a most-recent-by-label
period, and the current-situation failure reason is appended exactly when
that value exceeds 1. -/
theorem c3_current_check (now : Now) (cur : Option BCRADebtData)
    (hist : BCRAHistoricalData) (hne : hist.periodos ≠ []) :
    (∀ label : String, getWorstSituationForPeriod ⟨label, []⟩ = 1) ∧
    ∃ p ∈ hist.periodos,
      (∀ q ∈ hist.periodos, labelLe q.periodo p.periodo = true) ∧
      (analyzeBCRAEligibility now cur (some hist)).currentSituation =
        some (getWorstSituationForPeriod p) ∧
      (currentReason (getWorstSituationForPeriod p) ∈
          (analyzeBCRAEligibility now cur (some hist)).failureReasons ↔
        1 < getWorstSituationForPeriod p) := by
  refine ⟨fun _ => rfl, ?_⟩
  cases hs : sortPeriodsDesc hist.periodos with
  | nil => exact absurd ((sortPeriodsDesc_eq_nil_iff _).mp hs) hne
  | cons p rest =>
    obtain ⟨hpmem, hpmax⟩ := sortPeriodsDesc_head_max hs
    refine ⟨p, hpmem, hpmax, ?_, ?_⟩
    · rw [analyze_eq_of_sort hs, analyzeSorted_currentSituation]
    · rw [analyze_eq_of_sort hs, analyzeSorted_failureReasons]
      constructor
      · intro hmem
        rcases List.mem_append.mp hmem with h1 | h2
        · rcases List.mem_append.mp h1 with hc | h6
          · by_cases hgt : getWorstSituationForPeriod p > 1
            · exact hgt
            · rw [if_neg hgt] at hc
              simp at hc
          · rcases mem_thresholdReasons_iff.mp h6 with ⟨m, _, _, habs⟩
            exact absurd habs (currentReason_ne_last6Reason _ _)
        · rcases mem_thresholdReasons_iff.mp h2 with ⟨m, _, _, habs⟩
          exact absurd habs (currentReason_ne_last12Reason _ _)
      · intro hgt
        apply List.mem_append.mpr
        left
        apply List.mem_append.mpr
        left
        rw [if_pos hgt]
        exact List.mem_singleton_self _

/-- C3 witness: on the worked example, the most recent period is January
2024 with worst situation 1, and no current-situation reason is appended. -/
theorem c3_witness :
    ∃ p ∈ exampleHistorical.periodos,
      (∀ q ∈ exampleHistorical.periodos, labelLe q.periodo p.periodo = true) ∧
      (analyzeBCRAEligibility nowMarch2024 none (some exampleHistorical)).currentSituation =
        some (getWorstSituationForPeriod p) ∧
      (currentReason (getWorstSituationForPeriod p) ∈
          (analyzeBCRAEligibility nowMarch2024 none (some exampleHistorical)).failureReasons ↔
        1 < getWorstSituationForPeriod p) :=
  (c3_current_check nowMarch2024 none exampleHistorical (by decide)).2

/-- C9: whenever the verdict's 6-month worst situation is non-null, the
12-month worst situation is non-null as well and at least as large, since
every period in the 6-month window also lies in the 12-month window. -/
theorem c9_window_monotonicity (now : Now) (cur : Option BCRADebtData)
    (histOpt : Option BCRAHistoricalData) (m6 : Int)
    (h : (analyzeBCRAEligibility now cur histOpt).last6MonthsWorstSituation = some m6) :
    ∃ m12, (analyzeBCRAEligibility now cur histOpt).last12MonthsWorstSituation = some m12 ∧
      m6 ≤ m12 := by
  cases histOpt with
  | none => cases cur <;> simp [analyzeBCRAEligibility, pendingAnalysis] at h
  | some hist =>
    cases hs : sortPeriodsDesc hist.periodos with
    | nil =>
      rw [analyzeBCRAEligibility] at h
      cases cur <;> simp [hs, pendingAnalysis] at h
    | cons p rest =>
      rw [analyze_eq_of_sort hs] at h ⊢
      rw [analyzeSorted_last6] at h
      rw [analyzeSorted_last12]
      obtain ⟨hmem, hall⟩ := worstOfPeriods_spec h
      obtain ⟨q, hqF6, hqval⟩ := List.mem_map.mp hmem
      have hq12 : q ∈ (p :: rest).filter
          fun r => isPeriodWithinMonths now r.periodo 12 := by
        rcases List.mem_filter.mp hqF6 with ⟨hqmem, hqpred⟩
        exact List.mem_filter.mpr
          ⟨hqmem, isPeriodWithinMonths_mono (by norm_num) hqpred⟩
      have hF12ne : ((p :: rest).filter
          fun r => isPeriodWithinMonths now r.periodo 12) ≠ [] := by
        intro hnil
        rw [hnil] at hq12
        simp at hq12
      cases h12 : worstOfPeriods ((p :: rest).filter
          fun r => isPeriodWithinMonths now r.periodo 12) with
      | none => exact absurd ((worstOfPeriods_eq_none_iff _).mp h12) hF12ne
      | some m12 =>
        obtain ⟨_, hall12⟩ := worstOfPeriods_spec h12
        refine ⟨m12, rfl, ?_⟩
        rw [← hqval]
        exact hall12 q hq12

/-- C9 witness: on the worked example the 6-month worst situation is 3 and
the 12-month worst situation is at least 3. -/
theorem c9_witness :
    ∃ m12,
      (analyzeBCRAEligibility nowMarch2024 none (some exampleHistorical)).last12MonthsWorstSituation =
        some m12 ∧ (3 : Int) ≤ m12 :=
  c9_window_monotonicity nowMarch2024 none (some exampleHistorical) 3 (by decide)

/-- C7 counterexample: two historical records whose period lists are
permutations of each other, with a duplicated most-recent label, receive
different values of `currentSituation`: the stable sort keeps input order
among equal labels, so the analyzer reads whichever duplicate comes first. -/
theorem c7_counterexample :
    ([⟨"202501", [⟨"Banco Uno", 1, 100, false, false⟩]⟩,
      ⟨"202501", [⟨"Banco Dos", 3, 100, false, false⟩]⟩] :
        List BCRAHistoricalPeriod).Perm
      [⟨"202501", [⟨"Banco Dos", 3, 100, false, false⟩]⟩,
       ⟨"202501", [⟨"Banco Uno", 1, 100, false, false⟩]⟩] ∧
    (analyzeBCRAEligibility ⟨2025, 6⟩ none
      (some ⟨20123456789, "X",
        [⟨"202501", [⟨"Banco Uno", 1, 100, false, false⟩]⟩,
         ⟨"202501", [⟨"Banco Dos", 3, 100, false, false⟩]⟩]⟩)).currentSituation ≠
    (analyzeBCRAEligibility ⟨2025, 6⟩ none
      (some ⟨20123456789, "X",
        [⟨"202501", [⟨"Banco Dos", 3, 100, false, false⟩]⟩,
         ⟨"202501", [⟨"Banco Uno", 1, 100, false, false⟩]⟩]⟩)).currentSituation :=
  ⟨by decide, by decide⟩

/-- C7 amended: when the period labels are pairwise distinct, the input
order of the periods does not affect `currentSituation` — the unique
most-recent-by-label period is selected regardless of array order. -/
theorem c7_order_invariance_amended (now : Now) (cur : Option BCRADebtData)
    (d1 d2 : BCRAHistoricalData) (hperm : d1.periodos.Perm d2.periodos)
    (hnodup : (d1.periodos.map fun p => p.periodo).Nodup) :
    (analyzeBCRAEligibility now cur (some d1)).currentSituation =
      (analyzeBCRAEligibility now cur (some d2)).currentSituation := by
  cases hs1 : sortPeriodsDesc d1.periodos with
  | nil =>
    have h1 : d1.periodos = [] := (sortPeriodsDesc_eq_nil_iff _).mp hs1
    have h2 : d2.periodos = [] := by
      rw [h1] at hperm
      exact hperm.symm.eq_nil
    have hs2 : sortPeriodsDesc d2.periodos = [] := (sortPeriodsDesc_eq_nil_iff _).mpr h2
    rw [analyzeBCRAEligibility, analyzeBCRAEligibility]
    cases cur <;> simp [hs1, hs2, pendingAnalysis]
  | cons p1 r1 =>
    cases hs2 : sortPeriodsDesc d2.periodos with
    | nil =>
      have h2 : d2.periodos = [] := (sortPeriodsDesc_eq_nil_iff _).mp hs2
      rw [h2] at hperm
      rw [(sortPeriodsDesc_eq_nil_iff _).mpr hperm.eq_nil] at hs1
      exact absurd hs1 (by simp)
    | cons p2 r2 =>
      obtain ⟨hp1mem, hp1max⟩ := sortPeriodsDesc_head_max hs1
      obtain ⟨hp2mem, hp2max⟩ := sortPeriodsDesc_head_max hs2
      have hp2mem1 : p2 ∈ d1.periodos := hperm.symm.subset hp2mem
      have hp1mem2 : p1 ∈ d2.periodos := hperm.subset hp1mem
      have hlabel : p1.periodo = p2.periodo :=
        labelLe_antisymm (hp2max p1 hp1mem2) (hp1max p2 hp2mem1)
      have heq : p1 = p2 := List.inj_on_of_nodup_map hnodup hp1mem hp2mem1 hlabel
      rw [analyze_eq_of_sort hs1, analyze_eq_of_sort hs2,
        analyzeSorted_currentSituation, analyzeSorted_currentSituation, heq]

/-- C7 witness for the amended claim: the worked example's periods have
distinct labels, and reversing them leaves `currentSituation` unchanged. -/
theorem c7_witness :
    (analyzeBCRAEligibility nowMarch2024 none (some exampleHistorical)).currentSituation =
      (analyzeBCRAEligibility nowMarch2024 none
        (some ⟨20123456789, "CONTRIBUYENTE EJEMPLO",
          [⟨"202312", [⟨"Banco Dos", 2, 50, false, false⟩,
            ⟨"Banco Tres", 3, 25, false, false⟩]⟩,
           ⟨"202401", [⟨"Banco Uno", 1, 100, false, false⟩]⟩]⟩)).currentSituation :=
  c7_order_invariance_amended nowMarch2024 none exampleHistorical
    ⟨20123456789, "CONTRIBUYENTE EJEMPLO",
      [⟨"202312", [⟨"Banco Dos", 2, 50, false, false⟩,
        ⟨"Banco Tres", 3, 25, false, false⟩]⟩,
       ⟨"202401", [⟨"Banco Uno", 1, 100, false, false⟩]⟩]⟩
    (by decide) (by decide)

/-- C1: on a present historical record with a non-empty period list whose
labels are well-formed YYYYMM labels, the 6-month check keeps exactly the
periods whose first-of-month date is on or after the evaluation month
minus 6 (inclusive boundary); when some period qualifies,
`last6MonthsWorstSituation` is the maximum of the qualifying periods'
worst situations and the 6-month failure reason is appended exactly when
that maximum exceeds 1; when none qualifies the field stays null and no
6-month reason is appended. -/
theorem c1_six_month_check (now : Now) (cur : Option BCRADebtData)
    (hist : BCRAHistoricalData) (hne : hist.periodos ≠ [])
    (hwf : ∀ q ∈ hist.periodos, WellFormedLabel q.periodo)
    (hnow : 100 ≤ now.currentYear) :
    (∀ q ∈ hist.periodos,
      (isPeriodWithinMonths now q.periodo 6 = true ↔ specWithinMonths now q.periodo 6)) ∧
    ((hist.periodos.filter fun q => decide (specWithinMonths now q.periodo 6)) = [] →
      (analyzeBCRAEligibility now cur (some hist)).last6MonthsWorstSituation = none ∧
      ∀ m : Int,
        last6Reason m ∉ (analyzeBCRAEligibility now cur (some hist)).failureReasons) ∧
    ((hist.periodos.filter fun q => decide (specWithinMonths now q.periodo 6)) ≠ [] →
      ∃ m : Int,
        (analyzeBCRAEligibility now cur (some hist)).last6MonthsWorstSituation = some m ∧
        m ∈ (hist.periodos.filter fun q => decide (specWithinMonths now q.periodo 6)).map
            getWorstSituationForPeriod ∧
        (∀ q ∈ hist.periodos.filter fun q => decide (specWithinMonths now q.periodo 6),
          getWorstSituationForPeriod q ≤ m) ∧
        (last6Reason m ∈ (analyzeBCRAEligibility now cur (some hist)).failureReasons ↔
          1 < m)) := by
  cases hs : sortPeriodsDesc hist.periodos with
  | nil => exact absurd ((sortPeriodsDesc_eq_nil_iff _).mp hs) hne
  | cons p rest =>
    have hfp := window_filter_perm (n := 6) hs hwf hnow
    refine ⟨?_, ?_, ?_⟩
    · intro q hq
      rw [isPeriodWithinMonths_eq_spec (hwf q hq) hnow]
      exact decide_eq_true_iff
    · intro hnil
      rw [hnil] at hfp
      have hcodenil : ((p :: rest).filter
          fun q => isPeriodWithinMonths now q.periodo 6) = [] := hfp.symm.eq_nil
      constructor
      · rw [analyze_eq_of_sort hs, analyzeSorted_last6, hcodenil]
        rfl
      · intro m hmem
        rw [analyze_eq_of_sort hs, analyzeSorted_failureReasons] at hmem
        rcases List.mem_append.mp hmem with h1 | h2
        · rcases List.mem_append.mp h1 with hc | h6
          · by_cases hgt : getWorstSituationForPeriod p > 1
            · rw [if_pos hgt] at hc
              exact absurd (List.mem_singleton.mp hc).symm
                (currentReason_ne_last6Reason _ _)
            · rw [if_neg hgt] at hc
              simp at hc
          · rcases mem_thresholdReasons_iff.mp h6 with ⟨m', hm', _, _⟩
            rw [hcodenil] at hm'
            simp [worstOfPeriods] at hm'
        · rcases mem_thresholdReasons_iff.mp h2 with ⟨m', _, _, habs⟩
          exact absurd habs (last6Reason_ne_last12Reason _ _)
    · intro hnonnil
      have hcode_ne : ((p :: rest).filter
          fun q => isPeriodWithinMonths now q.periodo 6) ≠ [] := by
        intro hnil
        rw [hnil] at hfp
        exact hnonnil hfp.eq_nil
      cases hw : worstOfPeriods ((p :: rest).filter
          fun q => isPeriodWithinMonths now q.periodo 6) with
      | none => exact absurd ((worstOfPeriods_eq_none_iff _).mp hw) hcode_ne
      | some m =>
        obtain ⟨hmmem, hmall⟩ := worstOfPeriods_spec hw
        refine ⟨m, ?_, ?_, ?_, ?_⟩
        · rw [analyze_eq_of_sort hs, analyzeSorted_last6, hw]
        · exact (hfp.map getWorstSituationForPeriod).mem_iff.mpr hmmem
        · intro q hq
          exact hmall q (hfp.subset hq)
        · rw [analyze_eq_of_sort hs, analyzeSorted_failureReasons]
          constructor
          · intro hmem
            rcases List.mem_append.mp hmem with h1 | h2
            · rcases List.mem_append.mp h1 with hc | h6
              · by_cases hgt : getWorstSituationForPeriod p > 1
                · rw [if_pos hgt] at hc
                  exact absurd (List.mem_singleton.mp hc).symm
                    (currentReason_ne_last6Reason _ _)
                · rw [if_neg hgt] at hc
                  simp at hc
              · rcases mem_thresholdReasons_iff.mp h6 with ⟨m', hm', hgt', _⟩
                rw [hw] at hm'
                rw [Option.some.inj hm']
                exact hgt'
            · rcases mem_thresholdReasons_iff.mp h2 with ⟨m', _, _, habs⟩
              exact absurd habs (last6Reason_ne_last12Reason _ _)
          · intro hgt
            apply List.mem_append.mpr
            left
            apply List.mem_append.mpr
            right
            exact mem_thresholdReasons_iff.mpr ⟨m, hw, hgt, rfl⟩

/-- C1 witness: on the worked example evaluated in March 2024, both
periods qualify for the 6-month window, the maximum worst situation is 3
and the 6-month failure reason is appended. -/
theorem c1_witness :
    ∃ m : Int,
      (analyzeBCRAEligibility nowMarch2024 none
        (some exampleHistorical)).last6MonthsWorstSituation = some m ∧
      m ∈ (exampleHistorical.periodos.filter
          fun q => decide (specWithinMonths nowMarch2024 q.periodo 6)).map
        getWorstSituationForPeriod ∧
      (∀ q ∈ exampleHistorical.periodos.filter
          fun q => decide (specWithinMonths nowMarch2024 q.periodo 6),
        getWorstSituationForPeriod q ≤ m) ∧
      (last6Reason m ∈ (analyzeBCRAEligibility nowMarch2024 none
          (some exampleHistorical)).failureReasons ↔ 1 < m) :=
  (c1_six_month_check nowMarch2024 none exampleHistorical
    (by decide) (by decide) (by decide)).2.2 (by decide)

/-- C2: the 12-month check follows the same inclusive trailing-window rule
as the 6-month check with a 12-month window and threshold 2: when some
period qualifies, `last12MonthsWorstSituation` is the maximum of the
qualifying periods' worst situations and the 12-month failure reason is
appended exactly when that maximum exceeds 2 (not 1); when none qualifies
the field stays null and no 12-month reason is appended. -/
theorem c2_twelve_month_check (now : Now) (cur : Option BCRADebtData)
    (hist : BCRAHistoricalData) (hne : hist.periodos ≠ [])
    (hwf : ∀ q ∈ hist.periodos, WellFormedLabel q.periodo)
    (hnow : 100 ≤ now.currentYear) :
    (∀ q ∈ hist.periodos,
      (isPeriodWithinMonths now q.periodo 12 = true ↔ specWithinMonths now q.periodo 12)) ∧
    ((hist.periodos.filter fun q => decide (specWithinMonths now q.periodo 12)) = [] →
      (analyzeBCRAEligibility now cur (some hist)).last12MonthsWorstSituation = none ∧
      ∀ m : Int,
        last12Reason m ∉ (analyzeBCRAEligibility now cur (some hist)).failureReasons) ∧
    ((hist.periodos.filter fun q => decide (specWithinMonths now q.periodo 12)) ≠ [] →
      ∃ m : Int,
        (analyzeBCRAEligibility now cur (some hist)).last12MonthsWorstSituation = some m ∧
        m ∈ (hist.periodos.filter fun q => decide (specWithinMonths now q.periodo 12)).map
            getWorstSituationForPeriod ∧
        (∀ q ∈ hist.periodos.filter fun q => decide (specWithinMonths now q.periodo 12),
          getWorstSituationForPeriod q ≤ m) ∧
        (last12Reason m ∈ (analyzeBCRAEligibility now cur (some hist)).failureReasons ↔
          2 < m)) := by
  cases hs : sortPeriodsDesc hist.periodos with
  | nil => exact absurd ((sortPeriodsDesc_eq_nil_iff _).mp hs) hne
  | cons p rest =>
    have hfp := window_filter_perm (n := 12) hs hwf hnow
    refine ⟨?_, ?_, ?_⟩
    · intro q hq
      rw [isPeriodWithinMonths_eq_spec (hwf q hq) hnow]
      exact decide_eq_true_iff
    · intro hnil
      rw [hnil] at hfp
      have hcodenil : ((p :: rest).filter
          fun q => isPeriodWithinMonths now q.periodo 12) = [] := hfp.symm.eq_nil
      constructor
      · rw [analyze_eq_of_sort hs, analyzeSorted_last12, hcodenil]
        rfl
      · intro m hmem
        rw [analyze_eq_of_sort hs, analyzeSorted_failureReasons] at hmem
        rcases List.mem_append.mp hmem with h1 | h2
        · rcases List.mem_append.mp h1 with hc | h6
          · by_cases hgt : getWorstSituationForPeriod p > 1
            · rw [if_pos hgt] at hc
              exact absurd (List.mem_singleton.mp hc).symm
                (currentReason_ne_last12Reason _ _)
            · rw [if_neg hgt] at hc
              simp at hc
          · rcases mem_thresholdReasons_iff.mp h6 with ⟨m', _, _, habs⟩
            exact absurd habs.symm (last6Reason_ne_last12Reason _ _)
        · rcases mem_thresholdReasons_iff.mp h2 with ⟨m', hm', _, _⟩
          rw [hcodenil] at hm'
          simp [worstOfPeriods] at hm'
    · intro hnonnil
      have hcode_ne : ((p :: rest).filter
          fun q => isPeriodWithinMonths now q.periodo 12) ≠ [] := by
        intro hnil
        rw [hnil] at hfp
        exact hnonnil hfp.eq_nil
      cases hw : worstOfPeriods ((p :: rest).filter
          fun q => isPeriodWithinMonths now q.periodo 12) with
      | none => exact absurd ((worstOfPeriods_eq_none_iff _).mp hw) hcode_ne
      | some m =>
        obtain ⟨hmmem, hmall⟩ := worstOfPeriods_spec hw
        refine ⟨m, ?_, ?_, ?_, ?_⟩
        · rw [analyze_eq_of_sort hs, analyzeSorted_last12, hw]
        · exact (hfp.map getWorstSituationForPeriod).mem_iff.mpr hmmem
        · intro q hq
          exact hmall q (hfp.subset hq)
        · rw [analyze_eq_of_sort hs, analyzeSorted_failureReasons]
          constructor
          · intro hmem
            rcases List.mem_append.mp hmem with h1 | h2
            · rcases List.mem_append.mp h1 with hc | h6
              · by_cases hgt : getWorstSituationForPeriod p > 1
                · rw [if_pos hgt] at hc
                  exact absurd (List.mem_singleton.mp hc).symm
                    (currentReason_ne_last12Reason _ _)
                · rw [if_neg hgt] at hc
                  simp at hc
              · rcases mem_thresholdReasons_iff.mp h6 with ⟨m', _, _, habs⟩
                exact absurd habs.symm (last6Reason_ne_last12Reason _ _)
            · rcases mem_thresholdReasons_iff.mp h2 with ⟨m', hm', hgt', _⟩
              rw [hw] at hm'
              rw [Option.some.inj hm']
              exact hgt'
          · intro hgt
            apply List.mem_append.mpr
            right
            exact mem_thresholdReasons_iff.mpr ⟨m, hw, hgt, rfl⟩

/-- C2 witness: on the worked example evaluated in March 2024, both
periods qualify for the 12-month window, the maximum worst situation is 3
and the 12-month failure reason is appended because 3 exceeds 2. -/
theorem c2_witness :
    ∃ m : Int,
      (analyzeBCRAEligibility nowMarch2024 none
        (some exampleHistorical)).last12MonthsWorstSituation = some m ∧
      m ∈ (exampleHistorical.periodos.filter
          fun q => decide (specWithinMonths nowMarch2024 q.periodo 12)).map
        getWorstSituationForPeriod ∧
      (∀ q ∈ exampleHistorical.periodos.filter
          fun q => decide (specWithinMonths nowMarch2024 q.periodo 12),
        getWorstSituationForPeriod q ≤ m) ∧
      (last12Reason m ∈ (analyzeBCRAEligibility nowMarch2024 none
          (some exampleHistorical)).failureReasons ↔ 2 < m) :=
  (c2_twelve_month_check nowMarch2024 none exampleHistorical
    (by decide) (by decide) (by decide)).2.2 (by decide)

end Cityloan
